import Mathlib

/-!
Verification development for the migi GUI-automation action engine
(`src/migi/automation/engine.py`).

Strings are modelled as `List Char` (`Str`); Python floats as `ℚ` with
Python's round-half-to-even (`pyRound`); external collaborators
(`pyautogui`, `pyperclip`, `importlib`, the optional `ui_tars` package,
`ast.literal_eval`) as explicit parameters.  The dispatcher is modelled as
a pure function producing an effect trace (the sequence of injected input
events and sleeps) together with the result-info step log, mirroring
`execute_pyautogui_action`.
-/

set_option maxRecDepth 4000
set_option allowUnsafeReducibility true

attribute [local semireducible] Rat.mul Rat.inv Rat.add Rat.sub

/-- Python strings, modelled as lists of characters. -/
abbrev Str := List Char

/-- Shorthand to write `Str` literals. -/
def str (s : String) : Str := s.toList

/-- Python `str.lower()` (ASCII range, which is all the engine compares). -/
def lowerStr (s : Str) : Str := s.map Char.toLower

/-- Python whitespace, as stripped by `str.strip()` and matched by `\s`. -/
def isPyWS (c : Char) : Bool :=
  c = ' ' || c = '\t' || c = '\n' || c = '\r' || c = Char.ofNat 11 || c = Char.ofNat 12

/-- Python `str.strip()`. -/
def stripStr (s : Str) : Str :=
  ((s.dropWhile isPyWS).reverse.dropWhile isPyWS).reverse

/-- Python `sub in s` substring containment. -/
def containsSub (pat : Str) : Str → Bool
  | [] => pat.isEmpty
  | c :: t => pat.isPrefixOf (c :: t) || containsSub pat t

/-- Helper for `splitWS`: accumulates the current word (reversed). -/
def splitWSAux : Str → Str → List Str
  | [], acc => if acc.isEmpty then [] else [acc.reverse]
  | c :: t, acc =>
    if isPyWS c then
      if acc.isEmpty then splitWSAux t [] else acc.reverse :: splitWSAux t []
    else splitWSAux t (c :: acc)

/-- Python `str.split()` with no argument: split on whitespace runs. -/
def splitWS (s : Str) : List Str := splitWSAux s []

/-- Python `s.split(ch, 1)` when `ch` occurs: the parts before and after the
first occurrence; `none` when `ch` is absent (so `ch in s` is false). -/
def splitOnceChar (ch : Char) : Str → Option (Str × Str)
  | [] => none
  | c :: t =>
    if c = ch then some ([], t)
    else
      match splitOnceChar ch t with
      | some (a, b) => some (c :: a, b)
      | none => none

/-- Python `s.replace(pat, "")` for a nonempty `pat`, fuel-driven so that it
is structural (fuel `s.length` always suffices: every step consumes at least
one character). -/
def removeAllFuel (pat : Str) : ℕ → Str → Str
  | 0, _ => []
  | _ + 1, [] => []
  | fuel + 1, c :: t =>
    if pat.isPrefixOf (c :: t) then removeAllFuel pat fuel ((c :: t).drop pat.length)
    else c :: removeAllFuel pat fuel t

/-- Python `s.replace(pat, "")` for a nonempty pattern. -/
def removeAll (pat : Str) (s : Str) : Str := removeAllFuel pat s.length s

/-- Render an integer the way Python string interpolation does. -/
def intStr (i : ℤ) : Str := (toString i).toList

/-- Python `round` on an exact rational: round half to even.  Implemented on
the numerator and denominator so that it evaluates by kernel reduction:
`f` is the floor of `q` and `r` its nonnegative remainder, and the
fractional part compares to one half as `2 * r` compares to `d`. -/
def pyRound (q : ℚ) : ℤ :=
  let n := q.num
  let d : ℤ := (q.den : ℤ)
  let f := Int.fdiv n d
  let r := n - f * d
  if 2 * r < d then f
  else if d < 2 * r then f + 1
  else if f % 2 = 0 then f else f + 1

/-- Numeric value of a digit character. -/
def digitVal (c : Char) : ℕ := c.toNat - 48

/-- Value of a digit string read in base 10. -/
def digitsVal (s : Str) : ℕ := s.foldl (fun a c => a * 10 + digitVal c) 0

/-- Python `float(s)` restricted to the decimal literals the point grammar
produces: optional sign, integer digits, optional fraction.  Exponent,
infinity and NaN forms are not produced by the action mini-language and are
omitted; any other shape raises `ValueError`, modelled as `none`. -/
def parseFloatQ (s0 : Str) : Option ℚ :=
  let s1 := stripStr s0
  let signed : ℚ × Str :=
    match s1 with
    | '-' :: r => (-1, r)
    | '+' :: r => (1, r)
    | _ => (1, s1)
  let sign := signed.1
  let s := signed.2
  let ip := s.takeWhile Char.isDigit
  let rest := s.drop ip.length
  match rest with
  | [] => if ip.isEmpty then none else some (sign * (digitsVal ip : ℚ))
  | '.' :: fr =>
    if fr.all Char.isDigit && !(ip.isEmpty && fr.isEmpty) then
      some (sign * ((digitsVal ip : ℚ) + (digitsVal fr : ℚ) / (10 : ℚ) ^ fr.length))
    else none
  | _ => none

/-! ### Action-string extractor (`_split_multi_actions`) -/

/-- Find the first case-insensitive occurrence of `tag` (given lowercase) in
`s`; returns the text before the occurrence and the text after it. -/
def findTag (tag : Str) : Str → Option (Str × Str)
  | [] => none
  | c :: t =>
    if lowerStr ((c :: t).take tag.length) = tag then
      some ([], (c :: t).drop tag.length)
    else
      match findTag tag t with
      | some (pre2, post) => some (c :: pre2, post)
      | none => none

/-- All non-overlapping matches of `<action>(.*?)</action>` (case-insensitive,
dot matches newline) in document order, fuel-driven: each iteration consumes
at least the two tags, so fuel `s.length` always suffices. -/
def findActionSpansFuel : ℕ → Str → List Str
  | 0, _ => []
  | fuel + 1, s =>
    match findTag (str "<action>") s with
    | none => []
    | some (_, r1) =>
      match findTag (str "</action>") r1 with
      | none => []
      | some (body, r2) => body :: findActionSpansFuel fuel r2

/-- Bodies of the delimited action spans of `s`, in document order. -/
def findActionSpans (s : Str) : List Str := findActionSpansFuel s.length s

/-- The recognized command-kind names of the fallback bare-call pattern, in
the source's alternation order. -/
def actionFuncs : List Str :=
  [str "click", str "left_double", str "right_single", str "drag",
   str "hotkey", str "type", str "scroll", str "wait", str "finished",
   str "left_single", str "hover", str "select"]

/-- First command-kind name matching case-insensitively at the start of `s`
(no name in the alternation is a prefix of another, so order is immaterial). -/
def matchKindName (s : Str) : Option Str :=
  actionFuncs.find? fun n => lowerStr (s.take n.length) = n

/-- Match `(name)\s*\([^)]*\)` at the start of `s`: returns the matched text
and the remainder after the match. -/
def matchCall (s : Str) : Option (Str × Str) :=
  match matchKindName s with
  | none => none
  | some n =>
    let namePart := s.take n.length
    let r1 := s.drop n.length
    let ws := r1.takeWhile isPyWS
    let r2 := r1.drop ws.length
    match r2 with
    | '(' :: r3 =>
      let body := r3.takeWhile fun c => c ≠ ')'
      let r4 := r3.drop body.length
      match r4 with
      | ')' :: r5 => some (namePart ++ ws ++ '(' :: body ++ [')'], r5)
      | _ => none
    | _ => none

/-- Match `(?:Action:\s*)?(kind)\s*\([^)]*\)` at the start of `s`.  If the
optional labelled form fails after consuming the label, the regex engine
retries the unlabelled form at the same position. -/
def matchBare (s : Str) : Option (Str × Str) :=
  if lowerStr (s.take 7) = str "action:" then
    let r1 := s.drop 7
    let ws := r1.takeWhile isPyWS
    match matchCall (r1.drop ws.length) with
    | some (m, rest) => some (s.take 7 ++ ws ++ m, rest)
    | none => matchCall s
  else matchCall s

/-- Per-match post-processing of the fallback pass: strip a leading
case-insensitive `Action:` label then re-attach the normalized label. -/
def processBare (m : Str) : Str :=
  let a := if lowerStr (m.take 7) = str "action:" then stripStr (m.drop 7) else m
  str "Action: " ++ a

/-- Scan for non-overlapping bare-call matches left to right (`finditer`),
fuel-driven: every step consumes at least one character. -/
def bareCallScanFuel : ℕ → Str → List Str
  | 0, _ => []
  | _ + 1, [] => []
  | fuel + 1, c :: t =>
    match matchBare (c :: t) with
    | some (m, rest) => processBare m :: bareCallScanFuel fuel rest
    | none => bareCallScanFuel fuel t

/-- The fallback passes of `_split_multi_actions`: the bare-call scan, and
if that finds nothing, the whole trimmed response as a single expression. -/
def bareFallback (response : Str) : List Str :=
  let found := bareCallScanFuel response.length response
  if found.isEmpty then [str "Action: " ++ stripStr response] else found

/-- Primary-pass processing of `_split_multi_actions`: each trimmed nonempty
span body, prefixed with the normalized label, in document order. -/
def primaryActions (spans : List Str) : List Str :=
  spans.filterMap fun m =>
    let a := stripStr m
    if a.isEmpty then none else some (str "Action: " ++ a)

/-- Two-pass extractor `_split_multi_actions`, with the fallback pass as an
explicit parameter so that non-use of the fallback is expressible. -/
def splitMultiActionsAux (fallback : Str → List Str) (response : Str) : List Str :=
  let xmlMatches := findActionSpans response
  if xmlMatches.isEmpty then fallback response else primaryActions xmlMatches

/-- The extractor `_split_multi_actions` exactly as in the source. -/
def splitMultiActions (response : Str) : List Str :=
  splitMultiActionsAux bareFallback response

/-! ### Builtin call grammar (`_extract_call_parts` and friends) -/

/-- First character class of the call-shape identifier: `[a-zA-Z_]`. -/
def isIdentStart (c : Char) : Bool := c.isAlpha || c = '_'

/-- Subsequent character class of the identifier: `[a-zA-Z0-9_]`. -/
def isIdentChar (c : Char) : Bool := c.isAlphanum || c = '_'

/-- Match `^([a-zA-Z_][a-zA-Z0-9_]*)\((.*)\)$` (dot matches newline): a
maximal identifier, an opening parenthesis, and a closing parenthesis at the
very end; the greedy group 2 is everything in between. -/
def matchCallShape (s : Str) : Option (Str × Str) :=
  match s with
  | [] => none
  | c :: cs =>
    if isIdentStart c then
      let tail := cs.takeWhile isIdentChar
      let rest := cs.drop tail.length
      match rest with
      | '(' :: r2 =>
        if r2.getLast? = some ')' then some (c :: tail, r2.dropLast) else none
      | _ => none
    else none

/-- Strip a leading case-insensitive `action:` label (and re-strip), as done
at the head of `_extract_call_parts`. -/
def stripActionLabel (raw : Str) : Str :=
  if lowerStr (raw.take 7) = str "action:" then stripStr (raw.drop 7) else raw

/-- The call-parts splitter `_extract_call_parts`: lowercased name and raw
argument text, or the lowercased whole text with empty arguments as a
pass-through when the call shape does not match. -/
def extractCallParts (actionStr : Str) : Str × Str :=
  let raw := stripActionLabel (stripStr actionStr)
  match matchCallShape raw with
  | none => (lowerStr raw, [])
  | some (name, args) => (lowerStr name, stripStr args)

/-- Match `name\s*=\s*q([^q]*)q` at the start of `s` for quote character `q`,
returning the quoted body. -/
def matchNamedArg (name : Str) (q : Char) (s : Str) : Option Str :=
  if name.isPrefixOf s then
    let r1 := s.drop name.length
    let r2 := r1.dropWhile isPyWS
    match r2 with
    | '=' :: r3 =>
      let r4 := r3.dropWhile isPyWS
      match r4 with
      | c :: r5 =>
        if c = q then
          let body := r5.takeWhile fun d => d ≠ q
          if (r5.drop body.length).isEmpty then none else some body
        else none
      | [] => none
    | _ => none
  else none

/-- Leftmost match of the named-argument pattern anywhere in `s`
(`re.search`). -/
def searchNamedArg (name : Str) (q : Char) : Str → Option Str
  | [] => none
  | c :: t =>
    match matchNamedArg name q (c :: t) with
    | some b => some b
    | none => searchNamedArg name q t

/-- The single-quote character, written by code point to keep the source
free of quote-character literals. -/
def sqChar : Char := Char.ofNat 39

/-- The quoted-argument extractor `_extract_quoted_arg`: single-quoted form
first, then double-quoted. -/
def extractQuotedArg (args : Str) (name : Str) : Option Str :=
  match searchNamedArg name sqChar args with
  | some v => some v
  | none => searchNamedArg name '"' args

/-- The point-argument extractor `_extract_point_arg`: unwrap the point
markers, split on whitespace, parse the two leading floats. -/
def extractPointArg (args : Str) (name : Str) : Option (List ℚ) :=
  match extractQuotedArg args name with
  | none => none
  | some v =>
    if v.isEmpty then none
    else
      let cleaned := stripStr (removeAll (str "</point>") (removeAll (str "<point>") v))
      let parts := splitWS cleaned
      match parts with
      | p0 :: p1 :: _ =>
        match parseFloatQ p0, parseFloatQ p1 with
        | some a, some b => some [a, b]
        | _, _ => none
      | _ => none

/-! ### Parsed commands and the builtin parser (`_parse_builtin_action`) -/

/-- A Python value as it appears in an `action_inputs` mapping: a string or
a list of numbers (a point or box). -/
inductive PyVal
  | str (s : Str)
  | nums (l : List ℚ)
deriving DecidableEq

/-- Python truthiness of an inputs value (`if v:`). -/
def PyVal.truthy : PyVal → Bool
  | .str s => !s.isEmpty
  | .nums l => !l.isEmpty

/-- Numeric-list view of a value; a non-list where a box is required is a
runtime type error in the source, modelled as `none`. -/
def PyVal.asNums : PyVal → Option (List ℚ)
  | .str _ => none
  | .nums l => some l

/-- Python `str(v)`.  A numeric list renders with brackets, digits and
punctuation only, which is all the single use site (substring search for
`up`/`down`) can observe. -/
def pyStrOfVal : PyVal → Str
  | .str s => s
  | .nums l => str "[" ++ List.intercalate (str ", ") (l.map fun q => (toString q).toList) ++ str "]"

/-- A structured command: the dict `{action_type, action_inputs}` produced
by the parser backends. -/
structure ParsedCommand where
  actionType : Str
  actionInputs : List (Str × PyVal)
deriving DecidableEq

/-- Association-list lookup modelling Python `dict.get` (parser-built dicts
have distinct keys). -/
def dictGet : List (Str × PyVal) → Str → Option PyVal
  | [], _ => none
  | (k, v) :: t, k2 => if k = k2 then some v else dictGet t k2

/-- The builtin parser `_parse_builtin_action`. -/
def parseBuiltinAction (actionStr : Str) : Option ParsedCommand :=
  let parts := extractCallParts actionStr
  let actionType := parts.1
  let args := parts.2
  if actionType ∈ [str "click", str "left_single", str "left_double",
      str "right_single", str "hover"] then
    match
      (match extractPointArg args (str "point") with
       | some pt => some pt
       | none => extractPointArg args (str "start_point")) with
    | none => none
    | some point => some ⟨actionType, [(str "start_box", PyVal.nums point)]⟩
  else if actionType ∈ [str "drag", str "select"] then
    match extractPointArg args (str "start_point"),
          extractPointArg args (str "end_point") with
    | some s, some e =>
      some ⟨actionType, [(str "start_box", PyVal.nums s), (str "end_box", PyVal.nums e)]⟩
    | _, _ => none
  else if actionType = str "scroll" then
    let direction :=
      match extractQuotedArg args (str "direction") with
      | some d => if d.isEmpty then str "down" else d
      | none => str "down"
    let inputs :=
      match extractPointArg args (str "point") with
      | some p => [(str "direction", PyVal.str direction), (str "start_box", PyVal.nums p)]
      | none => [(str "direction", PyVal.str direction)]
    some ⟨str "scroll", inputs⟩
  else if actionType = str "type" then
    match extractQuotedArg args (str "content") with
    | none => none
    | some content => some ⟨str "type", [(str "content", PyVal.str content)]⟩
  else if actionType = str "hotkey" then
    let keyCombo :=
      match extractQuotedArg args (str "key") with
      | some k => if k.isEmpty then extractQuotedArg args (str "content") else some k
      | none => extractQuotedArg args (str "content")
    match keyCombo with
    | none => none
    | some k => some ⟨str "hotkey", [(str "key", PyVal.str k)]⟩
  else if actionType = str "wait" then
    some ⟨str "wait", []⟩
  else if actionType = str "finished" then
    let inputs :=
      match extractQuotedArg args (str "content") with
      | some c => if c.isEmpty then [] else [(str "content", PyVal.str c)]
      | none => []
    some ⟨str "finished", inputs⟩
  else none

/-- The closed command set of the builtin grammar. -/
def commandKinds : List Str :=
  [str "click", str "left_single", str "left_double", str "right_single",
   str "hover", str "drag", str "select", str "scroll", str "type",
   str "hotkey", str "wait", str "finished"]

/-! ### Coordinate normalizer (`_point_to_screen_xy`, `_box_to_screen_xy`) -/

/-- The coordinate normalizer `_point_to_screen_xy`.  A list with fewer than
two entries raises `IndexError` in the source, modelled as `none`. -/
def pointToScreenXY (point : List ℚ) (imageWidth imageHeight scaleFactor : ℕ) :
    Option (ℤ × ℤ) :=
  match point with
  | x :: y :: _ =>
    if |x| ≤ (scaleFactor : ℚ) ∧ |y| ≤ (scaleFactor : ℚ) then
      some (pyRound (x * imageWidth / scaleFactor), pyRound (y * imageHeight / scaleFactor))
    else some (pyRound x, pyRound y)
  | _ => none

/-- The box normalizer `_box_to_screen_xy`: a 4-element box is reduced to
its center point first; anything else is passed through as a point. -/
def boxToScreenXY (box : List ℚ) (imageWidth imageHeight scaleFactor : ℕ) :
    Option (ℤ × ℤ) :=
  match box with
  | [x1, y1, x2, y2] =>
    pointToScreenXY [(x1 + x2) / 2, (y1 + y2) / 2] imageWidth imageHeight scaleFactor
  | other => pointToScreenXY other imageWidth imageHeight scaleFactor

/-! ### Action dispatcher (`execute_pyautogui_action`) -/

/-- An observable side effect of the dispatcher: a `time.sleep` or a call
into the input-injection / clipboard backend. -/
inductive Effect
  | sleep (seconds : ℚ)
  | copy (s : Str)
  | hotkey (keys : List Str)
  | press (key : Str)
  | moveTo (x y : ℤ)
  | dragTo (x y : ℤ)
  | click (x y : ℤ)
  | doubleClick (x y : ℤ)
  | rightClick (x y : ℤ)
  | scroll (amount : ℤ) (pos : Option (ℤ × ℤ))
deriving DecidableEq

/-- External context of the dispatcher: the current screen height reported
by `pyautogui.size()`, the platform family from `os.uname().sysname`, and
`ast.literal_eval` for string-encoded values. -/
structure ExtCtx where
  screenHeight : ℕ
  isDarwin : Bool
  litEval : Str → PyVal

/-- The constant `PIXELS_PER_SCROLL_CLICK`. -/
def pixelsPerScrollClick : ℕ := 15

/-- The `KEY_MAPPING` table of the input-normalization loop (it maps each of
its four keys to itself; `get(key, key)` falls back to the key). -/
def keyMappingTable : List (Str × Str) :=
  [(str "content", str "content"), (str "start_box", str "start_box"),
   (str "end_box", str "end_box"), (str "direction", str "direction")]

/-- Association-list lookup for string-valued tables. -/
def alistGetStr : List (Str × Str) → Str → Option Str
  | [], _ => none
  | (k, v) :: t, k2 => if k = k2 then some v else alistGetStr t k2

/-- The key renaming `KEY_MAPPING.get(key, key)`. -/
def keyMappingGet (k : Str) : Str :=
  match alistGetStr keyMappingTable k with
  | some v => v
  | none => k

/-- Value normalization of the dispatcher's input loop: a string value
containing a point marker goes through `safe_literal_eval`. -/
def normalizeValue (litEval : Str → PyVal) : PyVal → PyVal
  | .str s => if containsSub (str "<point>") s then litEval s else .str s
  | v => v

/-- The whole input-normalization loop at the head of each iteration of
`execute_pyautogui_action`. -/
def normalizeInputs (litEval : Str → PyVal) (inputs : List (Str × PyVal)) :
    List (Str × PyVal) :=
  inputs.map fun kv => (keyMappingGet kv.1, normalizeValue litEval kv.2)

/-- Resolution of a box-valued input: strings go through
`safe_literal_eval`; the result must be a numeric list (anything else is a
runtime error downstream, modelled as `none`). -/
def coerceBox (litEval : Str → PyVal) : PyVal → Option (List ℚ)
  | .str s => (litEval s).asNums
  | .nums l => some (l)

/-- The hotkey alias table `key_map`. -/
def hotkeyAliasTable : List (Str × Str) :=
  [(str "ctrl", str "ctrl"), (str "control", str "ctrl"),
   (str "cmd", str "command"), (str "command", str "command"),
   (str "alt", str "alt"), (str "option", str "alt"),
   (str "shift", str "shift"), (str "enter", str "enter"),
   (str "return", str "enter"), (str "tab", str "tab"),
   (str "esc", str "escape"), (str "escape", str "escape"),
   (str "space", str "space"), (str "backspace", str "backspace"),
   (str "delete", str "delete")]

/-- The hotkey alias lookup `key_map.get(item, item)`. -/
def hotkeyAlias (k : Str) : Str :=
  match alistGetStr hotkeyAliasTable k with
  | some v => v
  | none => k

/-- Python `content.endswith("\n") or content.endswith("\\n")`. -/
def endsWithNewline (s : Str) : Bool :=
  (str "\n").isSuffixOf s || (str "\\n").isSuffixOf s

/-- One iteration body of `execute_pyautogui_action` (everything after the
settle sleep): the effect trace and the steps appended to `result_info`.
`none` models an exception escaping the iteration.  The early return on
`finished` is keyed on the same `action_type` test in the loop below. -/
def execOne (ext : ExtCtx) (imageHeight imageWidth scaleFactor : ℕ)
    (response : ParsedCommand) : Option (List Effect × List Str) :=
  let actionType := response.actionType
  let inputs := normalizeInputs ext.litEval response.actionInputs
  if actionType = str "type" then
    match (dictGet inputs (str "content")).getD (.str []) with
    | .str c =>
      if !c.isEmpty then
        let paste := if ext.isDarwin then [str "command", str "v"] else [str "ctrl", str "v"]
        some ([Effect.copy c, Effect.sleep (1/5), Effect.hotkey paste, Effect.sleep (1/2)]
                ++ (if endsWithNewline c then [Effect.press (str "enter")] else []),
              [str "type:" ++ c.take 50])
      else some ([], [])
    | .nums l =>
      -- non-string content: `content.endswith` raises AttributeError
      if !l.isEmpty then none else some ([], [])
  else if actionType ∈ [str "drag", str "select"] then
    match dictGet inputs (str "start_box"), dictGet inputs (str "end_box") with
    | some sv, some ev =>
      if sv.truthy && ev.truthy then
        match coerceBox ext.litEval sv, coerceBox ext.litEval ev with
        | some sl, some el =>
          match boxToScreenXY sl imageWidth imageHeight scaleFactor,
                boxToScreenXY el imageWidth imageHeight scaleFactor with
          | some (sx, sy), some (ex, ey) =>
            some ([Effect.moveTo sx sy, Effect.dragTo ex ey],
                  [str "drag:" ++ intStr sx ++ str "," ++ intStr sy ++ str "->"
                     ++ intStr ex ++ str "," ++ intStr ey])
          | _, _ => none
        | _, _ => none
      else some ([], [])
    | _, _ => some ([], [])
  else if actionType = str "scroll" then
    let direction := lowerStr (pyStrOfVal ((dictGet inputs (str "direction")).getD (.str [])))
    let posR : Option (Option (ℤ × ℤ)) :=
      match dictGet inputs (str "start_box") with
      | some sv =>
        if sv.truthy then
          match coerceBox ext.litEval sv with
          | some l =>
            match boxToScreenXY l imageWidth imageHeight scaleFactor with
            | some xy => some (some xy)
            | none => none
          | none => none
        else some none
      | none => some none
    match posR with
    | none => none
    | some pos =>
      let scrollAmount : ℕ := max 1 (ext.screenHeight / 4 / pixelsPerScrollClick)
      if containsSub (str "up") direction then
        some ([Effect.scroll (scrollAmount : ℤ) pos], [str "scroll:up"])
      else if containsSub (str "down") direction then
        some ([Effect.scroll (-(scrollAmount : ℤ)) pos], [str "scroll:down"])
      else some ([], [])
  else if actionType ∈ [str "click", str "left_single", str "left_double",
      str "right_single", str "hover"] then
    match dictGet inputs (str "start_box") with
    | some sv =>
      if sv.truthy then
        match coerceBox ext.litEval sv with
        | some l =>
          match boxToScreenXY l imageWidth imageHeight scaleFactor with
          | some (x, y) =>
            if actionType ∈ [str "left_single", str "click"] then
              some ([Effect.click x y], [str "click:" ++ intStr x ++ str "," ++ intStr y])
            else if actionType = str "left_double" then
              some ([Effect.doubleClick x y],
                    [str "double_click:" ++ intStr x ++ str "," ++ intStr y])
            else if actionType = str "right_single" then
              some ([Effect.rightClick x y],
                    [str "right_click:" ++ intStr x ++ str "," ++ intStr y])
            else
              some ([Effect.moveTo x y], [str "hover:" ++ intStr x ++ str "," ++ intStr y])
          | none => none
        | none => none
      else some ([], [])
    | none => some ([], [])
  else if actionType = str "hotkey" then
    let v1 := (dictGet inputs (str "content")).getD (.str [])
    let keyCombo := if v1.truthy then v1 else (dictGet inputs (str "key")).getD (.str [])
    let keys := splitWS (stripStr (lowerStr (pyStrOfVal keyCombo)))
    if keys.isEmpty then some ([], [])
    else
      let mapped := keys.map hotkeyAlias
      some ([Effect.hotkey mapped], [str "hotkey:" ++ List.intercalate (str "+") mapped])
  else if actionType = str "finished" then
    some ([], [str "finished"])
  else if actionType = str "wait" then
    some ([Effect.sleep 5], [str "wait:5s"])
  else some ([], [])

/-- The dispatch loop of `execute_pyautogui_action`: a settle sleep before
every command except the first, then the iteration body, with an immediate
return upon a `finished` command. -/
def execLoop (ext : ExtCtx) (imageHeight imageWidth scaleFactor : ℕ) (first : Bool) :
    List ParsedCommand → Option (List Effect × List Str)
  | [] => some ([], [])
  | c :: rest =>
    let settle : List Effect := if first then [] else [Effect.sleep (3/10)]
    match execOne ext imageHeight imageWidth scaleFactor c with
    | none => none
    | some (effs, steps) =>
      if c.actionType = str "finished" then some (settle ++ effs, steps)
      else
        match execLoop ext imageHeight imageWidth scaleFactor false rest with
        | none => none
        | some (effs2, steps2) => some (settle ++ effs ++ effs2, steps ++ steps2)

/-- The dispatcher `execute_pyautogui_action` on a command batch, returning
the effect trace and the `result_info` step log (`none` models an escaping
exception). -/
def executePyautoguiAction (ext : ExtCtx) (responses : List ParsedCommand)
    (imageHeight imageWidth scaleFactor : ℕ) : Option (List Effect × List Str) :=
  execLoop ext imageHeight imageWidth scaleFactor true responses

/-! ### Parser backends and `parse_and_execute_action` -/

/-- An item of a list returned by an external parser backend: a command
dict, or something else (dropped by the `isinstance` filter). -/
inductive PyItem
  | dict (c : ParsedCommand)
  | nondict
deriving Inhabited

/-- A value returned by an external parser backend: one command dict, a
list, or anything else (ignored). -/
inductive PyParsed
  | dict (c : ParsedCommand)
  | list (items : List PyItem)
  | other
deriving Inhabited

/-- The `isinstance`-filtered commands of an external parser's return value
(`dict` → singleton; `list` → its dict items; otherwise nothing). -/
def pyParsedCommands : PyParsed → List ParsedCommand
  | .dict c => [c]
  | .list items => items.filterMap fun i =>
      match i with
      | .dict c => some c
      | .nondict => none
  | .other => []

/-- A module attribute as seen by `getattr` plus the `callable` test: a
callable with the custom-parser signature, or a non-callable object. -/
inductive PyAttr
  | callableFn (f : Str → ℕ → ℕ → ℕ → PyParsed)
  | nonCallable

/-- A resolvable Python module: its attributes by name (`getattr` raises
`AttributeError` on `none`). -/
structure PyModule where
  getAttr : Str → Option PyAttr

/-- Outcome of one `parse_action_to_structure_output` call: a value, a
`ValueError` (skipped by the loop), or another exception (propagates). -/
inductive UiOutcome
  | ok (p : PyParsed)
  | valueError
  | otherError (m : Str)

/-- The Python import environment: `importlib.import_module` (raising
`ModuleNotFoundError` on `none`) and the optional `ui_tars` capability
(`none` models `ModuleNotFoundError` on `from ui_tars... import`). -/
structure PyEnv where
  importModule : Str → Option PyModule
  uiTars : Option (Str → ℕ → ℕ → UiOutcome)

/-- The resolver `_load_custom_action_parser`: missing `:` separator,
unresolvable module, missing attribute and non-callable attribute each
raise, modelled as `Except.error`. -/
def loadCustomActionParser (env : PyEnv) (callablePath : Str) :
    Except Str (Str → ℕ → ℕ → ℕ → PyParsed) :=
  match splitOnceChar ':' callablePath with
  | none => Except.error (str "ValueError: custom action parser must be in module:function format")
  | some (moduleName, funcName) =>
    match env.importModule moduleName with
    | none => Except.error (str "ModuleNotFoundError: " ++ moduleName)
    | some md =>
      match md.getAttr funcName with
      | none => Except.error (str "AttributeError: " ++ funcName)
      | some (.callableFn f) => Except.ok f
      | some .nonCallable =>
        Except.error (str "ValueError: custom action parser is not callable")

/-- Per-expression normalization of the `ui_tars` branch: ensure an
`Action:` label is present (substring test, as in the source). -/
def uiTarsNormalize (s : Str) : Str :=
  let n := stripStr s
  if containsSub (str "Action:") n then n else str "Action: " ++ n

/-- The per-expression loop of the `ui_tars` branch: a `ValueError` skips
the expression and continues; any other exception propagates; results are
`isinstance`-filtered and concatenated in order. -/
def uiTarsParseAll (f : Str → ℕ → ℕ → UiOutcome) (imageWidth imageHeight : ℕ) :
    List Str → Except Str (List ParsedCommand)
  | [] => Except.ok []
  | a :: rest =>
    match f (uiTarsNormalize a) imageWidth imageHeight with
    | .valueError => uiTarsParseAll f imageWidth imageHeight rest
    | .otherError m => Except.error m
    | .ok p =>
      match uiTarsParseAll f imageWidth imageHeight rest with
      | .ok l => Except.ok (pyParsedCommands p ++ l)
      | .error m => Except.error m

/-- The tail of `parse_and_execute_action` after a backend has produced
`parsed_all`: the no-action result, or dispatch and the
`(action_triggered, execution_result, first_type)` triple. -/
def finalizeExecution (ext : ExtCtx) (parsedAll : List ParsedCommand)
    (imgHeight imgWidth scaleFactor : ℕ) : Except Str (Bool × List Str × Option Str) :=
  let firstType := parsedAll.head?.map ParsedCommand.actionType
  if parsedAll.isEmpty then Except.ok (false, [], none)
  else
    match executePyautoguiAction ext parsedAll imgHeight imgWidth scaleFactor with
    | none => Except.error (str "execution error")
    | some (_, steps) => Except.ok (true, steps, firstType)

/-- The backend-name normalization `(action_parser or "builtin").strip().lower()`. -/
def selectedParserName (actionParser : Str) : Str :=
  lowerStr (stripStr (if actionParser.isEmpty then str "builtin" else actionParser))

/-- The pipeline entry point `parse_and_execute_action`: extract the action
expressions, select a parser backend, parse, and dispatch.  Fatal errors
(`ValueError` from configuration, `DependencyError`, escaping execution
exceptions) are `Except.error`. -/
def parseAndExecuteAction (env : PyEnv) (ext : ExtCtx) (response : Str)
    (imgHeight imgWidth : ℕ) (actionParser : Str) (actionParserCallable : Option Str)
    (scaleFactor : ℕ) : Except Str (Bool × List Str × Option Str) :=
  let actionStrings := splitMultiActions response
  let parserName := selectedParserName actionParser
  if parserName = str "custom" then
    match actionParserCallable with
    | none => Except.error (str "ValueError: action parser callable is not configured")
    | some path =>
      if path.isEmpty then
        Except.error (str "ValueError: action parser callable is not configured")
      else
        match loadCustomActionParser env path with
        | Except.error m => Except.error m
        | Except.ok f =>
          finalizeExecution ext (pyParsedCommands (f response imgWidth imgHeight scaleFactor))
            imgHeight imgWidth scaleFactor
  else if parserName = str "ui_tars" then
    match env.uiTars with
    | none => Except.error (str "DependencyError: action parser ui_tars requires ui-tars-sdk")
    | some f =>
      match uiTarsParseAll f imgWidth imgHeight actionStrings with
      | Except.error m => Except.error m
      | Except.ok parsedAll => finalizeExecution ext parsedAll imgHeight imgWidth scaleFactor
  else
    finalizeExecution ext (actionStrings.filterMap parseBuiltinAction)
      imgHeight imgWidth scaleFactor

/-! ### Claim-level settle schedule (refinement target for the dispatcher) -/

/-- The prefix of a batch the dispatcher processes: everything up to and
including the first `finished` command. -/
def takeThroughFinished : List ParsedCommand → List ParsedCommand
  | [] => []
  | c :: rest =>
    if c.actionType = str "finished" then [c] else c :: takeThroughFinished rest

/-- Run the iteration body on each command of a list, collecting each
command's effect trace and steps; `none` as soon as one command raises. -/
def traverseExec (ext : ExtCtx) (imageHeight imageWidth scaleFactor : ℕ) :
    List ParsedCommand → Option (List (List Effect × List Str))
  | [] => some []
  | c :: rest =>
    match execOne ext imageHeight imageWidth scaleFactor c with
    | none => none
    | some es =>
      match traverseExec ext imageHeight imageWidth scaleFactor rest with
      | none => none
      | some l => some (es :: l)

/-- The batch schedule exactly as the spec words it: the executed prefix
runs through the first `finished` command; the first command has no
preceding delay, and every later command is preceded by exactly one fixed
settle delay, regardless of its kind; step logs concatenate in order. -/
def specSettleTrace (ext : ExtCtx) (responses : List ParsedCommand)
    (imageHeight imageWidth scaleFactor : ℕ) : Option (List Effect × List Str) :=
  match takeThroughFinished responses with
  | [] => some ([], [])
  | c :: rest =>
    match execOne ext imageHeight imageWidth scaleFactor c,
          traverseExec ext imageHeight imageWidth scaleFactor rest with
    | some es, some parts =>
      some (es.1 ++ (parts.map fun p => Effect.sleep (3/10) :: p.1).flatten,
            es.2 ++ (parts.map Prod.snd).flatten)
    | _, _ => none

/-! ### Claims -/

/-- C2: for every point `(x, y)` and geometry, with a positive scale factor
(the code divides by it), `_point_to_screen_xy` scales and rounds each axis
when both magnitudes are within the scale, and otherwise rounds the raw
components, treating the point as already in pixel space. -/
theorem pointNormalization (x y : ℚ) (imageWidth imageHeight scaleFactor : ℕ)
    (_hs : 0 < scaleFactor) :
    pointToScreenXY [x, y] imageWidth imageHeight scaleFactor =
      some (if |x| ≤ (scaleFactor : ℚ) ∧ |y| ≤ (scaleFactor : ℚ) then
              (pyRound (x * imageWidth / scaleFactor),
               pyRound (y * imageHeight / scaleFactor))
            else (pyRound x, pyRound y)) := by
  by_cases h : |x| ≤ (scaleFactor : ℚ) ∧ |y| ≤ (scaleFactor : ℚ) <;>
    simp [pointToScreenXY, h]

/-- Witness for C2: point `(500, 500)` on a 1920 by 1080 screen at scale 1000
maps to pixel `(960, 540)`, and point `(1200, 50)` at scale 1000 is returned
unchanged. -/
theorem pointNormalizationWitness :
    pointToScreenXY [(500 : ℚ), 500] 1920 1080 1000 = some (960, 540) ∧
    pointToScreenXY [(1200 : ℚ), 50] 1920 1080 1000 = some (1200, 50) := by
  constructor
  · rw [pointNormalization 500 500 1920 1080 1000 (by norm_num),
      if_pos (by simp only [abs_le]; norm_num)]
    norm_num
    simp only [pyRound, Rat.num_ofNat, Rat.den_ofNat]
    decide
  · rw [pointNormalization 1200 50 1920 1080 1000 (by norm_num),
      if_neg (by simp only [abs_le]; norm_num)]
    simp only [pyRound, Rat.num_ofNat, Rat.den_ofNat]
    decide

/-- C8: normalizing a 4-element bounding box equals normalizing its
component-wise center point, for every geometry; in particular the box
`(100, 100, 300, 300)` reduces to the center `(200, 200)` before scaling. -/
theorem boxCenterReduction (x1 y1 x2 y2 : ℚ) (imageWidth imageHeight scaleFactor : ℕ) :
    boxToScreenXY [x1, y1, x2, y2] imageWidth imageHeight scaleFactor =
      pointToScreenXY [(x1 + x2) / 2, (y1 + y2) / 2] imageWidth imageHeight scaleFactor ∧
    boxToScreenXY [100, 100, 300, 300] imageWidth imageHeight scaleFactor =
      pointToScreenXY [200, 200] imageWidth imageHeight scaleFactor := by
  refine ⟨rfl, ?_⟩
  show pointToScreenXY [((100 : ℚ) + 300) / 2, ((100 : ℚ) + 300) / 2]
      imageWidth imageHeight scaleFactor = _
  norm_num

/-- C5: an expression that does not match the call-syntax shape `name(args)`
comes back from `_extract_call_parts` as a pass-through whose kind is its
lowercased (label-stripped, trimmed) text with no arguments; and whenever
that kind is outside the closed command set, the builtin parser drops the
expression, so downstream stages ignore it. -/
theorem passThroughUnmatched (s : Str)
    (h : matchCallShape (stripActionLabel (stripStr s)) = none) :
    extractCallParts s = (lowerStr (stripActionLabel (stripStr s)), []) ∧
    (lowerStr (stripActionLabel (stripStr s)) ∉ commandKinds →
      parseBuiltinAction s = none) := by
  have h1 : extractCallParts s = (lowerStr (stripActionLabel (stripStr s)), []) := by
    simp only [extractCallParts]
    rw [h]
  refine ⟨h1, fun h2 => ?_⟩
  simp only [commandKinds, List.mem_cons, List.not_mem_nil, or_false, not_or] at h2
  obtain ⟨k1, k2, k3, k4, k5, k6, k7, k8, k9, k10, k11, k12⟩ := h2
  unfold parseBuiltinAction
  rw [h1]
  simp [k1, k2, k3, k4, k5, k6, k7, k8, k9, k10, k11, k12]

/-- Witness for C5: the expression `hello world` is not call-shaped; it
passes through with kind `hello world` and the builtin parser returns no
command for it. -/
theorem passThroughUnmatchedWitness :
    extractCallParts (str "hello world") = (str "hello world", []) ∧
    parseBuiltinAction (str "hello world") = none := by
  have h := passThroughUnmatched (str "hello world") (by decide)
  exact ⟨by rw [h.1]; decide, h.2 (by decide)⟩

/-- Shared helper: when the primary pass finds at least one span, the
extractor's result is the primary-pass processing of those spans, whatever
the fallback pass would do. -/
theorem splitAuxEqPrimary (s : Str) (fb : Str → List Str)
    (h : findActionSpans s ≠ []) :
    splitMultiActionsAux fb s = primaryActions (findActionSpans s) := by
  have hne : (findActionSpans s).isEmpty = false := by
    cases hs : findActionSpans s with
    | nil => exact absurd hs h
    | cons a t => rfl
  simp [splitMultiActionsAux, hne]

/-- Counterexample for C3 as stated: for the response
`<action> wait() </action>` the extractor returns the span body prefixed
with the normalized `Action: ` label, not the bare trimmed body. -/
theorem splitSpansCounterexample :
    splitMultiActions (str "<action> wait() </action>") ≠
      (findActionSpans (str "<action> wait() </action>")).map stripStr := by decide

/-- C3 (amended): for any response containing at least one delimited action
span, the extractor returns, in document order, one entry per span whose
trimmed body is nonempty, namely that trimmed body prefixed with the
normalized label `Action: ` (whitespace-only bodies are dropped), and the
result does not depend on the fallback pass, which is never invoked. -/
theorem splitSpansPrimary (s : Str) (fallback : Str → List Str)
    (h : findActionSpans s ≠ []) :
    splitMultiActionsAux fallback s =
      (findActionSpans s).filterMap (fun m =>
        if (stripStr m).isEmpty then none else some (str "Action: " ++ stripStr m)) ∧
    splitMultiActions s = splitMultiActionsAux fallback s := by
  constructor
  · rw [splitAuxEqPrimary s fallback h]
    simp [primaryActions]
  · show splitMultiActionsAux bareFallback s = splitMultiActionsAux fallback s
    rw [splitAuxEqPrimary s fallback h, splitAuxEqPrimary s bareFallback h]

/-- Witness for C3: the response `<action> wait() </action>` yields exactly
`Action: wait()`, independently of the fallback. -/
theorem splitSpansPrimaryWitness :
    splitMultiActionsAux (fun _ => []) (str "<action> wait() </action>") =
      [str "Action: wait()"] ∧
    splitMultiActions (str "<action> wait() </action>") = [str "Action: wait()"] := by
  have h := splitSpansPrimary (str "<action> wait() </action>") (fun _ => []) (by decide)
  refine ⟨?_, ?_⟩
  · rw [h.1]; decide
  · rw [h.2, h.1]; decide

/-- C10: when a response contains at least one delimited action span but
every span body is whitespace-only, the extractor returns the empty list
(the fallback passes are never attempted), and the builtin pipeline reports
no action triggered with an empty step log, executing nothing. -/
theorem whitespaceSpansNoAction (s : Str) (env : PyEnv) (ext : ExtCtx)
    (imgHeight imgWidth scaleFactor : ℕ) (cb : Option Str)
    (h1 : findActionSpans s ≠ [])
    (h2 : ∀ b ∈ findActionSpans s, stripStr b = []) :
    splitMultiActions s = [] ∧
    parseAndExecuteAction env ext s imgHeight imgWidth (str "builtin") cb scaleFactor =
      Except.ok (false, [], none) := by
  have hsplit : splitMultiActions s = [] := by
    rw [show splitMultiActions s = splitMultiActionsAux bareFallback s from rfl,
      splitAuxEqPrimary s bareFallback h1]
    simp only [primaryActions, List.filterMap_eq_nil_iff]
    intro b hb
    simp [h2 b hb]
  refine ⟨hsplit, ?_⟩
  simp only [parseAndExecuteAction, hsplit]
  rw [if_neg (by decide), if_neg (by decide)]
  rfl

/-- Witness for C10: the response `<action>   </action> wait()` has one
span with whitespace-only body and a usable bare call outside it; the
pipeline still reports no action triggered. -/
theorem whitespaceSpansNoActionWitness :
    splitMultiActions (str "<action>   </action> wait()") = [] ∧
    parseAndExecuteAction ⟨fun _ => none, none⟩ ⟨1080, false, fun _ => PyVal.str []⟩
      (str "<action>   </action> wait()") 1080 1920 (str "builtin") none 1000 =
      Except.ok (false, [], none) :=
  whitespaceSpansNoAction (str "<action>   </action> wait()")
    ⟨fun _ => none, none⟩ ⟨1080, false, fun _ => PyVal.str []⟩
    1080 1920 1000 none (by decide) (by decide)

/-- C4: with the registered/custom parser backend selected, any resolution
failure of the parser reference (missing `:` separator, unresolvable
module, missing or non-callable symbol) makes the pipeline raise before the
backend parses anything and before any command executes: the overall result
is an error, so no execution steps are produced and the error is not
swallowed. -/
theorem customLoadFailureFatal (env : PyEnv) (ext : ExtCtx) (response : Str)
    (imgHeight imgWidth scaleFactor : ℕ) (path : Str)
    (h : ∃ m, loadCustomActionParser env path = Except.error m) :
    ∃ e, parseAndExecuteAction env ext response imgHeight imgWidth (str "custom")
      (some path) scaleFactor = Except.error e := by
  obtain ⟨m, hm⟩ := h
  simp only [parseAndExecuteAction]
  rw [show selectedParserName (str "custom") = str "custom" from by decide, if_pos rfl]
  by_cases hp : path.isEmpty = true
  · exact ⟨_, by rw [if_pos hp]⟩
  · rw [if_neg hp, hm]
    exact ⟨m, rfl⟩

/-- Witness for C4: a parser reference without the `:` separator fails to
resolve, and the pipeline reports the configuration error. -/
theorem customLoadFailureFatalWitness :
    ∃ e, parseAndExecuteAction ⟨fun _ => none, none⟩ ⟨1080, false, fun _ => PyVal.str []⟩
      (str "wait()") 1080 1920 (str "custom") (some (str "nocolon")) 1000 =
      Except.error e :=
  customLoadFailureFatal ⟨fun _ => none, none⟩ ⟨1080, false, fun _ => PyVal.str []⟩
    (str "wait()") 1080 1920 1000 (str "nocolon") ⟨_, rfl⟩

/-- C6: with the structured-third-party backend, a value-validation error on
one expression skips exactly that expression and parsing continues with all
remaining expressions; and when the optional capability cannot be imported,
the pipeline raises a fatal missing-dependency error at backend-selection
time, before any per-expression parsing. -/
theorem uiTarsPartialFailure (f : Str → ℕ → ℕ → UiOutcome)
    (imageWidth imageHeight : ℕ) (pre post : List Str) (a : Str)
    (hVal : f (uiTarsNormalize a) imageWidth imageHeight = UiOutcome.valueError)
    (env : PyEnv) (ext : ExtCtx) (response : Str)
    (imgHeight imgWidth scaleFactor : ℕ) (cb : Option Str)
    (hEnv : env.uiTars = none) :
    uiTarsParseAll f imageWidth imageHeight (pre ++ a :: post) =
      uiTarsParseAll f imageWidth imageHeight (pre ++ post) ∧
    parseAndExecuteAction env ext response imgHeight imgWidth (str "ui_tars") cb
        scaleFactor =
      Except.error (str "DependencyError: action parser ui_tars requires ui-tars-sdk") := by
  constructor
  · induction pre with
    | nil => simp [uiTarsParseAll, hVal]
    | cons b t ih =>
      simp only [List.cons_append, uiTarsParseAll, List.append_eq]
      rw [ih]
  · simp only [parseAndExecuteAction]
    rw [show selectedParserName (str "ui_tars") = str "ui_tars" from by decide,
      if_neg (by decide : ¬ str "ui_tars" = str "custom"), if_pos rfl, hEnv]

/-- Witness for C6: a backend that raises a value-validation error on the
middle expression leaves the other two expressions' processing unchanged,
and an unavailable capability yields the dependency error. -/
theorem uiTarsPartialFailureWitness :
    uiTarsParseAll (fun _ _ _ => UiOutcome.valueError) 1920 1080
        ([str "x"] ++ str "bad" :: [str "y"]) =
      uiTarsParseAll (fun _ _ _ => UiOutcome.valueError) 1920 1080
        ([str "x"] ++ [str "y"]) ∧
    parseAndExecuteAction ⟨fun _ => none, none⟩ ⟨1080, false, fun _ => PyVal.str []⟩
        (str "wait()") 1080 1920 (str "ui_tars") none 1000 =
      Except.error (str "DependencyError: action parser ui_tars requires ui-tars-sdk") :=
  uiTarsPartialFailure (fun _ _ _ => UiOutcome.valueError) 1920 1080
    [str "x"] [str "y"] (str "bad") rfl ⟨fun _ => none, none⟩
    ⟨1080, false, fun _ => PyVal.str []⟩ (str "wait()") 1080 1920 1000 none rfl

/-- Shared helper: the iteration body on a `finished` command, whatever its
inputs, produces no effects and exactly the `finished` step. -/
theorem execOneFinishedEq (ext : ExtCtx) (imageHeight imageWidth scaleFactor : ℕ)
    (c : ParsedCommand) (hfc : c.actionType = str "finished") :
    execOne ext imageHeight imageWidth scaleFactor c = some ([], [str "finished"]) := by
  simp only [execOne, hfc]
  rw [if_neg (by decide), if_neg (by decide), if_neg (by decide), if_neg (by decide),
    if_neg (by decide)]
  simp

/-- Shared helper: appending a `finished` command, and arbitrary commands
after it, to a batch that executes successfully without reaching `finished`
changes the run by exactly one settle delay (none at batch start) and the
`finished` step; the commands after `finished` contribute nothing. -/
theorem execLoopAppendFinished (ext : ExtCtx) (imageHeight imageWidth scaleFactor : ℕ)
    (post : List ParsedCommand) (fc : ParsedCommand)
    (hfc : fc.actionType = str "finished") :
    ∀ (pre : List ParsedCommand) (first : Bool) (e : List Effect) (s : List Str),
      (∀ c ∈ pre, c.actionType ≠ str "finished") →
      execLoop ext imageHeight imageWidth scaleFactor first pre = some (e, s) →
      execLoop ext imageHeight imageWidth scaleFactor first (pre ++ fc :: post) =
        some (e ++ (if first ∧ pre = [] then [] else [Effect.sleep (3/10)]),
              s ++ [str "finished"])
  | [], first, e, s, _, hexec => by
    simp only [execLoop, Option.some.injEq, Prod.mk.injEq] at hexec
    obtain ⟨he, hs⟩ := hexec
    subst he hs
    simp only [List.nil_append, execLoop,
      execOneFinishedEq ext imageHeight imageWidth scaleFactor fc hfc, if_pos hfc]
    cases first <;> simp
  | c :: t, first, e, s, hpre, hexec => by
    have hc : c.actionType ≠ str "finished" := hpre c (by simp)
    simp only [execLoop] at hexec
    cases hone : execOne ext imageHeight imageWidth scaleFactor c with
    | none =>
      simp only [hone] at hexec
      exact Option.noConfusion hexec
    | some es =>
      obtain ⟨effs, steps⟩ := es
      simp only [hone, if_neg hc] at hexec
      cases hrest : execLoop ext imageHeight imageWidth scaleFactor false t with
      | none =>
        simp only [hrest] at hexec
        exact Option.noConfusion hexec
      | some es2 =>
        obtain ⟨effs2, steps2⟩ := es2
        simp only [hrest, Option.some.injEq, Prod.mk.injEq] at hexec
        obtain ⟨he, hs⟩ := hexec
        subst he hs
        have ht := execLoopAppendFinished ext imageHeight imageWidth scaleFactor post fc
          hfc t false effs2 steps2 (fun d hd => hpre d (by simp [hd])) hrest
        show execLoop ext imageHeight imageWidth scaleFactor first (c :: (t ++ fc :: post)) = _
        simp only [execLoop, hone, if_neg hc, ht]
        simp [List.append_assoc]

/-- C1: when the dispatcher reaches a `finished` command, it appends the
`finished` step (preceded by the usual settle delay unless the batch is
empty before it) and returns immediately without error; every step executed
before that point is retained, and no command after `finished` is ever
executed — the result does not depend on `post` at all. -/
theorem finishedHaltsBatch (ext : ExtCtx) (imageHeight imageWidth scaleFactor : ℕ)
    (pre post : List ParsedCommand) (fc : ParsedCommand)
    (hpre : ∀ c ∈ pre, c.actionType ≠ str "finished")
    (hfc : fc.actionType = str "finished")
    (e : List Effect) (s : List Str)
    (hexec : executePyautoguiAction ext pre imageHeight imageWidth scaleFactor =
      some (e, s)) :
    executePyautoguiAction ext (pre ++ fc :: post) imageHeight imageWidth scaleFactor =
      some (e ++ (if pre = [] then [] else [Effect.sleep (3/10)]),
            s ++ [str "finished"]) := by
  have h := execLoopAppendFinished ext imageHeight imageWidth scaleFactor post fc hfc
    pre true e s hpre hexec
  simpa [executePyautoguiAction, true_and] using h

/-- Witness for C1: the batch `[click, type, finished, click]` executes
exactly three commands — the fourth never runs — and the step log has
exactly three entries, ending in `finished`. -/
theorem finishedHaltsBatchWitness :
    executePyautoguiAction ⟨1080, false, fun _ => PyVal.str []⟩
        ([⟨str "click", [(str "start_box", PyVal.nums [500, 500])]⟩,
          ⟨str "type", [(str "content", PyVal.str (str "hello"))]⟩] ++
          ⟨str "finished", ([] : List (Str × PyVal))⟩ ::
            [⟨str "click", [(str "start_box", PyVal.nums [500, 500])]⟩])
        1080 1920 1000 =
      some ([Effect.click 960 540, Effect.sleep (3/10), Effect.copy (str "hello"),
             Effect.sleep (1/5), Effect.hotkey [str "ctrl", str "v"], Effect.sleep (1/2),
             Effect.sleep (3/10)],
            [str "click:960,540", str "type:hello", str "finished"]) ∧
    [str "click:960,540", str "type:hello", str "finished"].length = 3 := by
  refine ⟨?_, rfl⟩
  rw [finishedHaltsBatch ⟨1080, false, fun _ => PyVal.str []⟩ 1080 1920 1000
    [⟨str "click", [(str "start_box", PyVal.nums [500, 500])]⟩,
     ⟨str "type", [(str "content", PyVal.str (str "hello"))]⟩]
    [⟨str "click", [(str "start_box", PyVal.nums [500, 500])]⟩]
    ⟨str "finished", ([] : List (Str × PyVal))⟩ (by decide) rfl
    [Effect.click 960 540, Effect.sleep (3/10), Effect.copy (str "hello"),
     Effect.sleep (1/5), Effect.hotkey [str "ctrl", str "v"], Effect.sleep (1/2)]
    [str "click:960,540", str "type:hello"] (by decide)]
  decide

/-- Shared helper: a dispatcher run in non-initial position over any batch
equals the per-command traversal of the batch's executed prefix with one
settle delay prepended to every command's effects. -/
theorem execLoopFalseTrace (ext : ExtCtx) (imageHeight imageWidth scaleFactor : ℕ) :
    ∀ cmds : List ParsedCommand,
      execLoop ext imageHeight imageWidth scaleFactor false cmds =
        (traverseExec ext imageHeight imageWidth scaleFactor
            (takeThroughFinished cmds)).map
          (fun parts => ((parts.map fun p => Effect.sleep (3/10) :: p.1).flatten,
                         (parts.map Prod.snd).flatten))
  | [] => by simp [execLoop, takeThroughFinished, traverseExec]
  | c :: cs => by
    by_cases hfc : c.actionType = str "finished"
    · simp only [execLoop, takeThroughFinished, if_pos hfc, traverseExec]
      cases hone : execOne ext imageHeight imageWidth scaleFactor c with
      | none => simp
      | some es => simp
    · simp only [execLoop, takeThroughFinished, if_neg hfc, traverseExec]
      rw [execLoopFalseTrace ext imageHeight imageWidth scaleFactor cs]
      cases hone : execOne ext imageHeight imageWidth scaleFactor c with
      | none => simp
      | some es =>
        obtain ⟨effs, steps⟩ := es
        cases htr : traverseExec ext imageHeight imageWidth scaleFactor
            (takeThroughFinished cs) with
        | none => simp
        | some parts => simp [List.append_assoc]

/-- C7: the dispatcher realizes the claim-level settle schedule exactly:
over the executed prefix of the batch, the command at index 0 runs with no
preceding delay and every later command is preceded by exactly one fixed
settle delay, regardless of the command's kind. -/
theorem settleDelaySchedule (ext : ExtCtx) (imageHeight imageWidth scaleFactor : ℕ)
    (responses : List ParsedCommand) :
    executePyautoguiAction ext responses imageHeight imageWidth scaleFactor =
      specSettleTrace ext responses imageHeight imageWidth scaleFactor := by
  cases responses with
  | nil => rfl
  | cons c cs =>
    by_cases hfc : c.actionType = str "finished"
    · simp only [executePyautoguiAction, execLoop, specSettleTrace, takeThroughFinished,
        if_pos hfc, traverseExec]
      cases hone : execOne ext imageHeight imageWidth scaleFactor c with
      | none => simp
      | some es => simp
    · simp only [executePyautoguiAction, execLoop, specSettleTrace, takeThroughFinished,
        if_neg hfc, traverseExec]
      rw [execLoopFalseTrace ext imageHeight imageWidth scaleFactor cs]
      cases hone : execOne ext imageHeight imageWidth scaleFactor c with
      | none => simp
      | some es =>
        obtain ⟨effs, steps⟩ := es
        cases htr : traverseExec ext imageHeight imageWidth scaleFactor
            (takeThroughFinished cs) with
        | none => simp
        | some parts => simp [List.append_assoc]

/-- C9: for a scroll command the dispatcher derives the scroll-unit count as
`max 1 (screen_height / 4 / PIXELS_PER_SCROLL_CLICK)` — a quarter of the
current screen height (floor) divided by the fixed 15-pixels-per-click
constant, minimum one unit.  It scrolls up by that amount logging
`scroll:up` when the lowercased direction contains `up`, scrolls down
logging `scroll:down` when it contains `down` but not `up`, and otherwise
performs no scroll and appends no step; a point argument only sets the
scroll position. -/
theorem scrollDispatch (ext : ExtCtx) (imageHeight imageWidth scaleFactor : ℕ)
    (d : Str) (hd : containsSub (str "<point>") d = false)
    (p : List ℚ) (xy : ℤ × ℤ) (hp : p ≠ [])
    (hxy : boxToScreenXY p imageWidth imageHeight scaleFactor = some xy) :
    pixelsPerScrollClick = 15 ∧
    (execOne ext imageHeight imageWidth scaleFactor
        ⟨str "scroll", [(str "direction", PyVal.str d)]⟩ =
      (if containsSub (str "up") (lowerStr d) then
        some ([Effect.scroll (max 1 (ext.screenHeight / 4 / pixelsPerScrollClick) : ℕ)
          none], [str "scroll:up"])
       else if containsSub (str "down") (lowerStr d) then
        some ([Effect.scroll (-(max 1 (ext.screenHeight / 4 / pixelsPerScrollClick) : ℕ))
          none], [str "scroll:down"])
       else some ([], []))) ∧
    (execOne ext imageHeight imageWidth scaleFactor
        ⟨str "scroll", [(str "direction", PyVal.str d),
                        (str "start_box", PyVal.nums p)]⟩ =
      (if containsSub (str "up") (lowerStr d) then
        some ([Effect.scroll (max 1 (ext.screenHeight / 4 / pixelsPerScrollClick) : ℕ)
          (some xy)], [str "scroll:up"])
       else if containsSub (str "down") (lowerStr d) then
        some ([Effect.scroll (-(max 1 (ext.screenHeight / 4 / pixelsPerScrollClick) : ℕ))
          (some xy)], [str "scroll:down"])
       else some ([], []))) := by
  have hpe : p.isEmpty = false := by
    cases p with
    | nil => exact absurd rfl hp
    | cons a t => rfl
  refine ⟨rfl, ?_, ?_⟩
  · simp +decide [execOne, normalizeInputs, normalizeValue, keyMappingGet, alistGetStr,
      keyMappingTable, dictGet, pyStrOfVal, hd]
  · simp +decide [execOne, normalizeInputs, normalizeValue, keyMappingGet, alistGetStr,
      keyMappingTable, dictGet, pyStrOfVal, PyVal.truthy, coerceBox, PyVal.asNums,
      hd, hpe, hxy]

/-- Witness for C9: with screen height 1080 the scroll count is
`max 1 (270 / 15) = 18`; direction `down` scrolls down by 18 logging
`scroll:down`, and the unrecognized direction `left` (with a point
argument) is a no-op appending no step. -/
theorem scrollDispatchWitness :
    execOne ⟨1080, false, fun _ => PyVal.str []⟩ 1080 1920 1000
        ⟨str "scroll", [(str "direction", PyVal.str (str "down"))]⟩ =
      some ([Effect.scroll (-18) none], [str "scroll:down"]) ∧
    execOne ⟨1080, false, fun _ => PyVal.str []⟩ 1080 1920 1000
        ⟨str "scroll", [(str "direction", PyVal.str (str "left")),
                        (str "start_box", PyVal.nums [500, 500])]⟩ =
      some ([], []) := by
  constructor
  · rw [(scrollDispatch ⟨1080, false, fun _ => PyVal.str []⟩ 1080 1920 1000
      (str "down") (by decide) [500, 500] (960, 540) (by decide) (by decide)).2.1]
    decide
  · rw [(scrollDispatch ⟨1080, false, fun _ => PyVal.str []⟩ 1080 1920 1000
      (str "left") (by decide) [500, 500] (960, 540) (by decide) (by decide)).2.2]
    decide
